import Mathlib

/-!
Verification development for the document_ai_v2 upload pipeline.

The definitions below are a shallow embedding of the Python source in
src/main.py: the upload event handler (process_document_upload), document
identity and auto-labeling, the classification-result extraction
(process_with_document_ai), the threshold evaluator
(check_training_conditions) and the workflow trigger, together with the
Firestore collections they touch, modelled as explicit state.

Modelling conventions:
  - timestamps are abstract naturals supplied by the caller (datetime.now);
  - confidences are rationals (the source compares them with 0.7);
  - Python string truthiness for document_label is modelled as the label
    being different from the empty string;
  - Python str.isalnum / upper / lower are modelled on their ASCII
    behaviour via Char.isAlphanum / Char.toUpper / Char.toLower;
  - external collaborators (Document AI, GCS, the workflow runner) are
    oracles whose outcomes are inputs of type Except; every external call
    the handler makes is recorded in an effect trace.
-/

namespace DocAI

/-! Python string primitives used by the source, implemented by structural
recursion on character lists so that every theorem evaluates by kernel
reduction on concrete inputs. -/

/-- Python str.lower, modelled on its ASCII behaviour. -/
def pyLower (s : String) : String := String.mk (s.toList.map Char.toLower)

/-- Python str.upper, modelled on its ASCII behaviour. -/
def pyUpper (s : String) : String := String.mk (s.toList.map Char.toUpper)

/-- Python single-character str.split on a character list. -/
def pySplitChars (sep : Char) : List Char → List (List Char)
  | [] => [[]]
  | c :: rest =>
    if c == sep then [] :: pySplitChars sep rest
    else
      match pySplitChars sep rest with
      | [] => [[c]]
      | g :: gs => (c :: g) :: gs

/-- Python s.split(sep) for a one-character separator. -/
def pySplit (s : String) (sep : Char) : List String :=
  (pySplitChars sep s.toList).map String.mk

/-- Join character groups with a separator (inverse of pySplitChars). -/
def joinChars (sep : Char) : List (List Char) → List Char
  | [] => []
  | [g] => g
  | g :: gs => g ++ sep :: joinChars sep gs

/-- Python s.replace(a, b) for one-character pattern and replacement. -/
def pyReplaceChar (s : String) (a b : Char) : String :=
  String.mk (s.toList.map (fun c => if c == a then b else c))

/-- Does the needle occur at the head of the haystack? -/
def matchesHere : List Char → List Char → Bool
  | [], _ => true
  | _ :: _, [] => false
  | n :: ns, h :: hs => n == h && matchesHere ns hs

/-- Does the needle occur contiguously anywhere in the haystack? -/
def containsSub (needle : List Char) : List Char → Bool
  | [] => matchesHere needle []
  | h :: hs => matchesHere needle (h :: hs) || containsSub needle hs

/-- Python `needle in hay` on strings (contiguous substring). -/
def strContains (hay needle : String) : Bool := containsSub needle.toList hay.toList

/-- Python s.startswith(pre). -/
def pyStartsWith (s pre : String) : Bool := matchesHere pre.toList s.toList

/-- os.path.basename for POSIX paths: the part after the last slash. -/
def pyBasename (p : String) : String :=
  String.mk ((pySplitChars '/' p.toList).getLastD [])

/-- Python `fn.rsplit(".", 1)[0] if "." in fn else fn`. -/
def stripLastExt (fn : String) : String :=
  if fn.toList.contains '.' then
    String.mk (joinChars '.' ((pySplitChars '.' fn.toList).dropLast))
  else fn

/-! MD5 (RFC 1321), executable over Nat words reduced mod 2 ^ 32; the
source uses hashlib.md5 on the UTF-8 encoding of the object path. -/

/-- UTF-8 encoding of one Unicode code point as a byte list. -/
def utf8EncodeCodepoint (n : Nat) : List Nat :=
  if n < 0x80 then [n]
  else if n < 0x800 then [0xc0 + n / 0x40, 0x80 + n % 0x40]
  else if n < 0x10000 then [0xe0 + n / 0x1000, 0x80 + n / 0x40 % 0x40, 0x80 + n % 0x40]
  else [0xf0 + n / 0x40000, 0x80 + n / 0x1000 % 0x40, 0x80 + n / 0x40 % 0x40, 0x80 + n % 0x40]

/-- UTF-8 encoding of a string (Python str.encode). -/
def utf8Encode (s : String) : List Nat :=
  s.toList.foldr (fun c acc => utf8EncodeCodepoint c.toNat ++ acc) []

/-- Per-operation left-rotation amounts of MD5. -/
def md5S : List Nat :=
  [7, 12, 17, 22, 7, 12, 17, 22, 7, 12, 17, 22, 7, 12, 17, 22,
   5, 9, 14, 20, 5, 9, 14, 20, 5, 9, 14, 20, 5, 9, 14, 20,
   4, 11, 16, 23, 4, 11, 16, 23, 4, 11, 16, 23, 4, 11, 16, 23,
   6, 10, 15, 21, 6, 10, 15, 21, 6, 10, 15, 21, 6, 10, 15, 21]

/-- Per-operation sine-derived constants of MD5. -/
def md5K : List Nat :=
  [0xd76aa478, 0xe8c7b756, 0x242070db, 0xc1bdceee,
   0xf57c0faf, 0x4787c62a, 0xa8304613, 0xfd469501,
   0x698098d8, 0x8b44f7af, 0xffff5bb1, 0x895cd7be,
   0x6b901122, 0xfd987193, 0xa679438e, 0x49b40821,
   0xf61e2562, 0xc040b340, 0x265e5a51, 0xe9b6c7aa,
   0xd62f105d, 0x02441453, 0xd8a1e681, 0xe7d3fbc8,
   0x21e1cde6, 0xc33707d6, 0xf4d50d87, 0x455a14ed,
   0xa9e3e905, 0xfcefa3f8, 0x676f02d9, 0x8d2a4c8a,
   0xfffa3942, 0x8771f681, 0x6d9d6122, 0xfde5380c,
   0xa4beea44, 0x4bdecfa9, 0xf6bb4b60, 0xbebfbc70,
   0x289b7ec6, 0xeaa127fa, 0xd4ef3085, 0x04881d05,
   0xd9d4d039, 0xe6db99e5, 0x1fa27cf8, 0xc4ac5665,
   0xf4292244, 0x432aff97, 0xab9423a7, 0xfc93a039,
   0x655b59c3, 0x8f0ccc92, 0xffeff47d, 0x85845dd1,
   0x6fa87e4f, 0xfe2ce6e0, 0xa3014314, 0x4e0811a1,
   0xf7537e82, 0xbd3af235, 0x2ad7d2bb, 0xeb86d391]

/-- Left rotation of a 32-bit word. -/
def leftrot32 (x n : Nat) : Nat := ((x <<< n) ||| (x >>> (32 - n))) % 2 ^ 32

/-- Little-endian 8-byte rendering of a 64-bit length field. -/
def word64LE (n : Nat) : List Nat :=
  [n % 256, n / 2 ^ 8 % 256, n / 2 ^ 16 % 256, n / 2 ^ 24 % 256,
   n / 2 ^ 32 % 256, n / 2 ^ 40 % 256, n / 2 ^ 48 % 256, n / 2 ^ 56 % 256]

/-- MD5 padding: a 0x80 byte, zeros to 56 mod 64, then the bit length. -/
def md5pad (msg : List Nat) : List Nat :=
  let len := msg.length
  let zeros := (119 - len % 64) % 64
  msg ++ 0x80 :: (List.replicate zeros 0 ++ word64LE ((8 * len) % 2 ^ 64))

/-- Split a byte list into 64-byte blocks; the fuel bounds the number of
blocks and each step consumes at least one byte, so the length of the
list is always enough fuel. -/
def chunks64Fuel : Nat → List Nat → List (List Nat)
  | 0, _ => []
  | _ + 1, [] => []
  | fuel + 1, c :: rest => (c :: rest).take 64 :: chunks64Fuel fuel ((c :: rest).drop 64)

/-- Split a byte list into 64-byte blocks. -/
def chunks64 (l : List Nat) : List (List Nat) := chunks64Fuel l.length l

/-- The sixteen little-endian 32-bit words of one block. -/
def wordsOfBlock (b : List Nat) : List Nat :=
  (List.range 16).map (fun j =>
    b.getD (4 * j) 0 + 2 ^ 8 * b.getD (4 * j + 1) 0 +
    2 ^ 16 * b.getD (4 * j + 2) 0 + 2 ^ 24 * b.getD (4 * j + 3) 0)

/-- One of the 64 MD5 operations. -/
def md5Round (M : List Nat) (st : Nat × Nat × Nat × Nat) (i : Nat) : Nat × Nat × Nat × Nat :=
  let a := st.1
  let b := st.2.1
  let c := st.2.2.1
  let d := st.2.2.2
  let f :=
    if i < 16 then (b &&& c) ||| ((b ^^^ 0xffffffff) &&& d)
    else if i < 32 then (d &&& b) ||| ((d ^^^ 0xffffffff) &&& c)
    else if i < 48 then b ^^^ c ^^^ d
    else c ^^^ (b ||| (d ^^^ 0xffffffff))
  let g :=
    if i < 16 then i
    else if i < 32 then (5 * i + 1) % 16
    else if i < 48 then (3 * i + 5) % 16
    else (7 * i) % 16
  let t := (f + a + md5K.getD i 0 + M.getD g 0) % 2 ^ 32
  (d, (b + leftrot32 t (md5S.getD i 0)) % 2 ^ 32, b, c)

/-- Absorb one 64-byte block into the MD5 state. -/
def md5Block (st : Nat × Nat × Nat × Nat) (block : List Nat) : Nat × Nat × Nat × Nat :=
  let M := wordsOfBlock block
  let r := (List.range 64).foldl (md5Round M) st
  ((st.1 + r.1) % 2 ^ 32, (st.2.1 + r.2.1) % 2 ^ 32,
   (st.2.2.1 + r.2.2.1) % 2 ^ 32, (st.2.2.2 + r.2.2.2) % 2 ^ 32)

/-- The four 32-bit state words of the MD5 digest of a string. -/
def md5digestWords (s : String) : Nat × Nat × Nat × Nat :=
  (chunks64 (md5pad (utf8Encode s))).foldl md5Block
    (0x67452301, 0xefcdab89, 0x98badcfe, 0x10325476)

/-- Little-endian 4-byte rendering of one state word. -/
def wordLEBytes (w : Nat) : List Nat := [w % 256, w / 2 ^ 8 % 256, w / 2 ^ 16 % 256, w / 2 ^ 24 % 256]

/-- The sixteen digest bytes of MD5 in output order. -/
def md5digestBytes (s : String) : List Nat :=
  let w := md5digestWords s
  wordLEBytes w.1 ++ wordLEBytes w.2.1 ++ wordLEBytes w.2.2.1 ++ wordLEBytes w.2.2.2

/-- Lowercase hexadecimal digit. -/
def hexDigitChar (n : Nat) : Char := if n < 10 then Char.ofNat (48 + n) else Char.ofNat (87 + n)

/-- The 32 characters of hashlib md5 hexdigest. -/
def md5hexChars (s : String) : List Char :=
  (md5digestBytes s).foldr (fun b acc => hexDigitChar (b / 16 % 16) :: hexDigitChar (b % 16) :: acc) []

/-- hashlib.md5(s.encode()).hexdigest() -/
def md5hex (s : String) : String := String.mk (md5hexChars s)

/-! Document identity (src/main.py lines 70 to 75). -/

/-- Keep alphanumerics, dash and underscore; anything else becomes an underscore. -/
def sanitizeChar (c : Char) : Char :=
  if c.isAlphanum || c == '-' || c == '_' then c else '_'

/-- The sanitized basename-without-extension prefix of the document id,
truncated to 40 characters. -/
def safeNamePart (fileName : String) : String :=
  let filenameOnly := pyBasename fileName
  let nameWithoutExt := stripLastExt filenameOnly
  String.mk (((pyReplaceChar nameWithoutExt ' ' '_').toList.map sanitizeChar).take 40)

/-- The first eight characters of the MD5 hexdigest of the full path. -/
def fileHash8 (fileName : String) : String := String.mk ((md5hexChars fileName).take 8)

/-- The document id of an uploaded object path (src/main.py lines 70 to 75). -/
def computeDocumentId (fileName : String) : String :=
  safeNamePart fileName ++ "_" ++ fileHash8 fileName

/-! Auto-labeling (src/main.py lines 177 to 201). -/

/-- The module-level keyword table DOCUMENT_TYPE_KEYWORDS of the source. -/
def DOCUMENT_TYPE_KEYWORDS : List (String × List String) :=
  [("CAPITAL_CALL", ["capital call", "drawdown", "commitment", "capital contribution"]),
   ("DISTRIBUTION_NOTICE", ["distribution", "proceeds", "realized", "dividend"]),
   ("FINANCIAL_STATEMENT", ["balance sheet", "income statement", "financial statement", "profit loss"]),
   ("PORTFOLIO_SUMMARY", ["portfolio", "holdings", "investments", "asset allocation"]),
   ("TAX", ["tax", "k-1", "schedule k", "1099", "1040"])]

/-- auto_label_document of the source, with the keyword table made an
explicit argument (the source reads the module-level table); the gcs_uri
argument of the source is unused there and kept for fidelity. -/
def autoLabelDocument (keywordTable : List (String × List String))
    (fileName : String) (_gcsUri : String) : String :=
  let pathParts := pySplit fileName '/'
  if pathParts.length > 2 then
    pyReplaceChar (pyUpper (pathParts.getD 1 "")) ' ' '_'
  else
    let fileNameLower := pyLower fileName
    match keywordTable.find? (fun kv => kv.2.any (fun k => strContains fileNameLower k)) with
    | some kv => kv.1
    | none => "OTHER"

/-! Processor versions (src/main.py lines 204 to 219). -/

/-- A Document AI processor version as seen through list_processor_versions. -/
structure ProcessorVersion where
  displayName : String
  state : String
deriving DecidableEq, Repr

/-- check_processor_versions: any exception while listing yields false,
otherwise true exactly when some version is in the DEPLOYED state. -/
def check_processor_versions (listResult : Except String (List ProcessorVersion)) : Bool :=
  match listResult with
  | Except.error _ => false
  | Except.ok versions => versions.foldl (fun hasDeployed v =>
      if v.state == "DEPLOYED" then true else hasDeployed) false

/-! Classification invoker (src/main.py lines 222 to 286). -/

/-- An entity of the Document AI response. -/
structure DocAIEntity where
  type_ : String
  mentionText : String
  confidence : ℚ
deriving DecidableEq, Repr

/-- A label of the Document AI response. -/
structure DocAILabel where
  name : String
  confidence : ℚ
deriving DecidableEq, Repr

/-- A page of the Document AI response; only its presence matters here. -/
structure DocAIPage where
  pageNumber : Nat
deriving DecidableEq, Repr

/-- The Document AI process_document response used by the source. -/
structure DocAIDocument where
  text : String
  pages : List DocAIPage
  entities : List DocAIEntity
  labels : List DocAILabel
deriving DecidableEq, Repr

/-- One entry of the extracted_data entities list. -/
structure ExtractedEntity where
  type : String
  text : String
  confidence : ℚ
deriving DecidableEq, Repr

/-- The extracted_data dictionary built by process_with_document_ai. -/
structure ExtractedData where
  textLength : Nat
  pageCount : Nat
  entities : List ExtractedEntity
deriving DecidableEq, Repr

/-- The dictionary returned by process_with_document_ai. -/
structure ProcessResult where
  documentType : String
  confidence : ℚ
  extractedData : ExtractedData
deriving DecidableEq, Repr

/-- The first entity whose type_ field is a non-empty string, with the
OTHER and zero-confidence defaults of the source when there is none
(the for loop with a break at src/main.py lines 252 to 258). -/
def firstEntityClass : List DocAIEntity → String × ℚ
  | [] => ("OTHER", 0)
  | e :: es => if e.type_ ≠ "" then (e.type_, e.confidence) else firstEntityClass es

/-- The label loop of src/main.py lines 261 to 265: replace the current
pair whenever a label has strictly larger confidence. -/
def labelScan (labels : List DocAILabel) (acc : String × ℚ) : String × ℚ :=
  labels.foldl (fun acc l => if l.confidence > acc.2 then (l.name, l.confidence) else acc) acc

/-- process_with_document_ai, with every external step (get_processor, the
blob download and the process_document call) summarized by its outcome:
on failure the source re-raises, on success it extracts the
classification pair and the extracted_data summary. -/
def process_with_document_ai (response : Except String DocAIDocument) :
    Except String ProcessResult :=
  match response with
  | Except.error e => Except.error e
  | Except.ok doc =>
    let pair := labelScan doc.labels (firstEntityClass doc.entities)
    Except.ok
      { documentType := pair.1
        confidence := pair.2
        extractedData :=
          { textLength := doc.text.length
            pageCount := doc.pages.length
            entities := doc.entities.map (fun e =>
              { type := e.type_, text := e.mentionText, confidence := e.confidence }) } }

/-! The document store (Firestore collections of the source). -/

/-- A processed_documents record (the doc_data dictionary of the source). -/
structure DocRecord where
  documentId : String
  gcsUri : String
  bucket : String
  fileName : String
  processorId : String
  status : String
  documentLabel : String
  createdAt : Nat
  usedForTraining : Bool
  documentType : Option String := none
  confidenceScore : Option ℚ := none
  processedAt : Option Nat := none
  extractedData : Option ExtractedData := none
deriving DecidableEq, Repr

/-- A training_configs record; every field is optional because the source
reads each one with a dict get carrying a default. -/
structure TrainingConfig where
  enabled : Option Bool := none
  minDocumentsForInitialTraining : Option Nat := none
  minDocumentsForIncremental : Option Nat := none
  minAccuracyForDeployment : Option Nat := none
  checkIntervalMinutes : Option Nat := none
  createdAt : Option Nat := none
deriving DecidableEq, Repr

/-- A training_batches record; only the fields the active-batch query uses. -/
structure TrainingBatch where
  processorId : String
  status : String
deriving DecidableEq, Repr

/-- The Firestore state touched by the handler. -/
structure Store where
  processedDocuments : List (String × DocRecord)
  trainingConfigs : List (String × TrainingConfig)
  trainingBatches : List TrainingBatch
deriving DecidableEq, Repr

/-- Replace the binding of a key, or append a new one (Firestore set). -/
def setAssoc {α : Type} (l : List (String × α)) (k : String) (v : α) : List (String × α) :=
  if l.any (fun kv => kv.1 == k) then
    l.map (fun kv => if kv.1 == k then (k, v) else kv)
  else l ++ [(k, v)]

/-- Look up a processed_documents record by document id. -/
def lookupDoc (store : Store) (id : String) : Option DocRecord :=
  store.processedDocuments.lookup id

/-- Write a processed_documents record (doc_ref.set). -/
def setDoc (store : Store) (id : String) (d : DocRecord) : Store :=
  { store with processedDocuments := setAssoc store.processedDocuments id d }

/-- Look up the training_configs record of a processor. -/
def lookupConfig (store : Store) (pid : String) : Option TrainingConfig :=
  store.trainingConfigs.lookup pid

/-- Write the training_configs record of a processor (config_ref.set). -/
def setConfig (store : Store) (pid : String) (c : TrainingConfig) : Store :=
  { store with trainingConfigs := setAssoc store.trainingConfigs pid c }

/-! Threshold evaluator (src/main.py lines 289 to 387). -/

/-- The batch statuses the active-training query matches. -/
def activeStatuses : List String := ["pending", "preparing", "training", "deploying"]

/-- The default training_configs record the source writes on first touch. -/
def defaultTrainingConfig (now : Nat) : TrainingConfig :=
  { enabled := some true
    minDocumentsForInitialTraining := some 3
    minDocumentsForIncremental := some 2
    minAccuracyForDeployment := some 0
    checkIntervalMinutes := some 60
    createdAt := some now }

/-- External calls made by one invocation, in order. -/
inductive Effect where
  | versionsListed : Effect
  | classifyCalled : String → Effect
  | recordWritten : String → Effect
  | configCreated : Effect
  | workflowTriggered : String → Effect
deriving DecidableEq, Repr

/-- check_training_conditions: decide whether to train and which kind,
returning the decision, the store (a default config may have been
written) and the effect trace of the call. -/
def check_training_conditions (pid : String) (store : Store) (now : Nat) :
    (Bool × String) × Store × List Effect :=
  let cse :=
    match lookupConfig store pid with
    | none =>
      (defaultTrainingConfig now, setConfig store pid (defaultTrainingConfig now),
       [Effect.configCreated])
    | some c => (c, store, [])
  let config := cse.1
  let store₁ := cse.2.1
  let effs := cse.2.2
  if !(config.enabled.getD true) then ((false, ""), store₁, effs)
  else
    let activeTraining :=
      (store₁.trainingBatches.filter (fun b =>
        b.processorId == pid && activeStatuses.contains b.status)).take 1
    if !activeTraining.isEmpty then ((false, ""), store₁, effs)
    else
      let pendingInitialDocs := (store₁.processedDocuments.map Prod.snd).filter (fun d =>
        d.processorId == pid && d.status == "pending_initial_training")
      let unusedCompletedDocs := (store₁.processedDocuments.map Prod.snd).filter (fun d =>
        d.processorId == pid && d.status == "completed" && d.usedForTraining == false)
      let pendingInitial := pendingInitialDocs.filter (fun d => !(d.documentLabel == ""))
      let unusedCompleted := unusedCompletedDocs.filter (fun d => !(d.documentLabel == ""))
      let pendingCount := pendingInitial.length
      let unusedCount := unusedCompleted.length
      let minInitial := config.minDocumentsForInitialTraining.getD 3
      if pendingCount ≥ minInitial then ((true, "initial"), store₁, effs)
      else
        let minIncremental := config.minDocumentsForIncremental.getD 2
        if unusedCount ≥ minIncremental then ((true, "incremental"), store₁, effs)
        else ((false, ""), store₁, effs)

/-! Upload event handler (src/main.py lines 52 to 174). -/

/-- The GCS finalize event consumed by the function. -/
structure UploadEvent where
  bucket : String
  name : String
  contentType : String
deriving DecidableEq, Repr

/-- The structured status dictionary the handler returns; absent keys of
the various return dictionaries are none. -/
structure HandlerResult where
  status : String
  reason : Option String := none
  documentId : Option String := none
  documentLabel : Option String := none
  trainingTriggered : Option Bool := none
  trainingType : Option String := none
  error : Option String := none
deriving DecidableEq, Repr

/-- Outcomes of the external collaborators for one invocation. -/
structure Oracles where
  listVersions : Except String (List ProcessorVersion)
  classify : Except String DocAIDocument
  workflow : Except String Unit
deriving Repr

/-- Is there an existing record for the id whose status is completed? -/
def alreadyCompleted (store : Store) (id : String) : Bool :=
  match lookupDoc store id with
  | some r => r.status == "completed"
  | none => false

/-- Save the document record, evaluate the training thresholds and
possibly trigger the workflow (src/main.py lines 135 to 167); the
workflow trigger is recorded as an effect whether or not it fails, and a
failure is caught and reported as partial_success. -/
def saveAndMaybeTrain (pid : String) (ora : Oracles) (now : Nat) (documentId : String)
    (docData : DocRecord) (store : Store) (effs : List Effect) :
    HandlerResult × Store × List Effect :=
  let store₁ := setDoc store documentId docData
  let effs₁ := effs ++ [Effect.recordWritten documentId]
  let ctc := check_training_conditions pid store₁ now
  let shouldTrain := ctc.1.1
  let trainingType := ctc.1.2
  let store₂ := ctc.2.1
  let effs₂ := effs₁ ++ ctc.2.2
  if shouldTrain then
    match ora.workflow with
    | Except.ok _ =>
      ({ status := "success", documentId := some documentId,
         documentLabel := some docData.documentLabel,
         trainingTriggered := some true, trainingType := some trainingType },
       store₂, effs₂ ++ [Effect.workflowTriggered trainingType])
    | Except.error e =>
      ({ status := "partial_success", documentId := some documentId,
         trainingTriggered := some false,
         error := some ("Workflow trigger failed: " ++ e) },
       store₂, effs₂ ++ [Effect.workflowTriggered trainingType])
  else
    ({ status := "success", documentId := some documentId,
       documentLabel := some docData.documentLabel,
       trainingTriggered := some false },
     store₂, effs₂)

/-- process_document_upload: the Cloud Function entry point, as a state
transformer on the store with an effect trace. -/
def process_document_upload (pid : String) (ora : Oracles) (now : Nat)
    (event : UploadEvent) (store : Store) : HandlerResult × Store × List Effect :=
  if !(pyStartsWith event.name "documents/") || !(event.contentType == "application/pdf") then
    ({ status := "skipped", reason := some "Not a document PDF" }, store, [])
  else
    let documentId := computeDocumentId event.name
    if alreadyCompleted store documentId then
      ({ status := "skipped", reason := some "Already processed" }, store, [])
    else
      let gcsUri := "gs://" ++ event.bucket ++ "/" ++ event.name
      let documentLabel := autoLabelDocument DOCUMENT_TYPE_KEYWORDS event.name gcsUri
      let docData : DocRecord :=
        { documentId := documentId
          gcsUri := gcsUri
          bucket := event.bucket
          fileName := event.name
          processorId := pid
          status := "pending"
          documentLabel := documentLabel
          createdAt := now
          usedForTraining := false }
      let hasTrainedVersion := check_processor_versions ora.listVersions
      if hasTrainedVersion then
        match process_with_document_ai ora.classify with
        | Except.error e =>
          ({ status := "error", error := some e }, store,
           [Effect.versionsListed, Effect.classifyCalled gcsUri])
        | Except.ok result =>
          let predictedType := result.documentType
          let confidence := result.confidence
          let documentLabel' :=
            if confidence < 7 / 10 ∧ documentLabel ≠ "OTHER" then documentLabel
            else predictedType
          let docData' :=
            { docData with
                status := "completed"
                documentType := some predictedType
                documentLabel := documentLabel'
                confidenceScore := some confidence
                processedAt := some now
                extractedData := some result.extractedData }
          saveAndMaybeTrain pid ora now documentId docData' store
            [Effect.versionsListed, Effect.classifyCalled gcsUri]
      else
        saveAndMaybeTrain pid ora now documentId
          { docData with status := "pending_initial_training" } store
          [Effect.versionsListed]

/-! Reference definitions written from the specification text, used to
compare the source functions against the spec claims. -/

/-- The effective (enabled, initial threshold, incremental threshold)
triple of a processor: the stored values with the documented defaults,
or the first-touch defaults when no configuration record exists. -/
def effectiveConfig (store : Store) (pid : String) : Bool × Nat × Nat :=
  match lookupConfig store pid with
  | none => (true, 3, 2)
  | some c => (c.enabled.getD true, c.minDocumentsForInitialTraining.getD 3,
               c.minDocumentsForIncremental.getD 2)

/-- Does the store hold a batch for the processor in a non-terminal status? -/
def hasActiveBatch (store : Store) (pid : String) : Bool :=
  store.trainingBatches.any (fun b => b.processorId == pid && activeStatuses.contains b.status)

/-- Number of labeled documents of the processor pending initial training. -/
def specPendingCount (store : Store) (pid : String) : Nat :=
  ((store.processedDocuments.map Prod.snd).filter (fun d =>
    d.processorId == pid && d.status == "pending_initial_training" &&
    !(d.documentLabel == ""))).length

/-- Number of labeled completed documents of the processor not yet consumed
by a training batch. -/
def specUnusedCount (store : Store) (pid : String) : Nat :=
  ((store.processedDocuments.map Prod.snd).filter (fun d =>
    d.processorId == pid && d.status == "completed" && d.usedForTraining == false &&
    !(d.documentLabel == ""))).length

/-- The reference decision of the Threshold Evaluator as the specification
states it: disabled means no training, an active batch means no training,
otherwise the initial threshold is checked on the labeled pending count
before the incremental threshold is checked on the labeled unused count. -/
def thresholdEvaluatorSpec (pid : String) (store : Store) : Bool × String :=
  let ec := effectiveConfig store pid
  if ec.1 = false then (false, "")
  else if hasActiveBatch store pid then (false, "")
  else if specPendingCount store pid ≥ ec.2.1 then (true, "initial")
  else if specUnusedCount store pid ≥ ec.2.2 then (true, "incremental")
  else (false, "")

/-- First-match keyword scan as the specification describes it: walk the
table in order and return the first label one of whose trigger phrases
occurs in the scanned text, with the OTHER sentinel when nothing matches. -/
def scanKeywordTable : List (String × List String) → String → String
  | [], _ => "OTHER"
  | (label, phrases) :: rest, s =>
    if phrases.any (fun k => strContains s k) then label else scanKeywordTable rest s

/-- The candidate classification pairs actually considered by
process_with_document_ai: the first typed entity (with its defaults),
then every label. -/
def classCandidates (doc : DocAIDocument) : List (String × ℚ) :=
  firstEntityClass doc.entities :: doc.labels.map (fun l => (l.name, l.confidence))

/-- Generic strict-improvement scan over candidate pairs. -/
def bestScan (acc : String × ℚ) (l : List (String × ℚ)) : String × ℚ :=
  l.foldl (fun acc p => if p.2 > acc.2 then p else acc) acc

/-! Helper lemmas. -/

theorem length_mk (l : List Char) : (String.mk l).length = l.length := rfl

theorem toList_mk (l : List Char) : (String.mk l).toList = l := rfl

theorem hexPairs_length (l : List Nat) :
    (l.foldr (fun b acc => hexDigitChar (b / 16 % 16) :: hexDigitChar (b % 16) :: acc)
      ([] : List Char)).length = 2 * l.length := by
  induction l with
  | nil => rfl
  | cons b t ih => simp [List.foldr_cons, ih]; ring

theorem md5digestBytes_length (s : String) : (md5digestBytes s).length = 16 := by
  unfold md5digestBytes
  rcases md5digestWords s with ⟨a, b, c, d⟩
  simp [wordLEBytes]

theorem md5hexChars_length (s : String) : (md5hexChars s).length = 32 := by
  unfold md5hexChars
  rw [hexPairs_length, md5digestBytes_length]

theorem fileHash8_length (s : String) : (fileHash8 s).length = 8 := by
  unfold fileHash8
  rw [length_mk, List.length_take, md5hexChars_length]
  decide

theorem sanitizeChar_safe (c : Char) :
    (sanitizeChar c).isAlphanum = true ∨ sanitizeChar c = '-' ∨ sanitizeChar c = '_' := by
  unfold sanitizeChar
  split
  · rename_i h
    rcases Bool.or_eq_true_iff.mp h with h' | h'
    · rcases Bool.or_eq_true_iff.mp h' with h'' | h''
      · exact Or.inl h''
      · exact Or.inr (Or.inl (by simpa using h''))
    · exact Or.inr (Or.inr (by simpa using h'))
  · exact Or.inr (Or.inr rfl)

theorem safeNamePart_chars (p : String) :
    ∀ c ∈ (safeNamePart p).toList, c.isAlphanum = true ∨ c = '-' ∨ c = '_' := by
  intro c hc
  unfold safeNamePart at hc
  rw [toList_mk] at hc
  have hc' := List.mem_of_mem_take hc
  rcases List.mem_map.mp hc' with ⟨a, _, rfl⟩
  exact sanitizeChar_safe a

theorem safeNamePart_length (p : String) : (safeNamePart p).length ≤ 40 := by
  unfold safeNamePart
  rw [length_mk, List.length_take]
  exact Nat.min_le_left _ _

/-! Claim C5: structure and determinism of the document id. -/

/-- C5: for every path, the document id is the basename without extension,
sanitized to the safe character set of alphanumerics, dash and underscore
and truncated to 40 characters, followed by the 8-character fingerprint
derived from the full path; the computation is a pure function of the
path, hence deterministic across calls. -/
theorem computeDocumentId_spec (p : String) :
    computeDocumentId p = safeNamePart p ++ "_" ++ fileHash8 p ∧
    safeNamePart p =
      String.mk ((((pyReplaceChar (stripLastExt (pyBasename p)) ' ' '_')).toList.map sanitizeChar).take 40) ∧
    (∀ c ∈ (safeNamePart p).toList, c.isAlphanum = true ∨ c = '-' ∨ c = '_') ∧
    (safeNamePart p).length ≤ 40 ∧
    (fileHash8 p).length = 8 ∧
    fileHash8 p = String.mk ((md5hexChars p).take 8) ∧
    computeDocumentId p = computeDocumentId p :=
  ⟨rfl, rfl, safeNamePart_chars p, safeNamePart_length p, fileHash8_length p, rfl, rfl⟩

/-! Claim C6: folder-segment labeling. -/

/-- C6: whenever the object path has more than two slash-separated parts,
auto_label_document returns the second part uppercased with spaces
replaced by underscores, whatever the keyword table holds. -/
theorem autoLabelDocument_subfolder (keywordTable : List (String × List String))
    (fileName gcsUri : String) (h : 2 < (pySplit fileName '/').length) :
    autoLabelDocument keywordTable fileName gcsUri =
      pyReplaceChar (pyUpper ((pySplit fileName '/').getD 1 "")) ' ' '_' := by
  unfold autoLabelDocument
  rw [if_pos h]

/-- Witness for C6 at a concrete path with a spaced folder segment and a
keyword table whose entries could never produce that label. -/
theorem autoLabelDocument_subfolder_witness :
    2 < (pySplit "documents/capital call/doc1.pdf" '/').length ∧
    autoLabelDocument [("TAX", ["capital call"])] "documents/capital call/doc1.pdf" "" =
      "CAPITAL_CALL" :=
  ⟨by decide,
   (autoLabelDocument_subfolder [("TAX", ["capital call"])]
     "documents/capital call/doc1.pdf" "" (by decide)).trans (by decide)⟩

/-! Claim C7: keyword labeling of paths without a folder segment. -/

/-- C7 counterexample: the path tax/doc.pdf has no folder segment (only
two slash-separated parts), no trigger phrase of the keyword table occurs
in its lowercased filename doc.pdf, so the claim requires the OTHER
sentinel, yet the source scans the whole lowercased path and returns TAX. -/
theorem autoLabelDocument_full_path_counterexample :
    (pySplit "tax/doc.pdf" '/').length ≤ 2 ∧
    (DOCUMENT_TYPE_KEYWORDS.all (fun kv =>
      kv.2.all (fun k => !(strContains (pyLower (pyBasename "tax/doc.pdf")) k)))) = true ∧
    autoLabelDocument DOCUMENT_TYPE_KEYWORDS "tax/doc.pdf" "" = "TAX" ∧
    "TAX" ≠ "OTHER" := by
  refine ⟨by decide, by decide, by decide, by decide⟩

/-- C7 amended: for paths without a folder segment, auto_label_document
performs the first-match keyword scan over the lowercased full object
path (not only the filename), returning the first table label one of
whose phrases occurs there, and the OTHER sentinel when none does. -/
theorem autoLabelDocument_keyword_scan (keywordTable : List (String × List String))
    (fileName gcsUri : String) (h : (pySplit fileName '/').length ≤ 2) :
    autoLabelDocument keywordTable fileName gcsUri =
      scanKeywordTable keywordTable (pyLower fileName) := by
  unfold autoLabelDocument
  rw [if_neg (by omega)]
  dsimp only
  induction keywordTable with
  | nil => rfl
  | cons kv rest ih =>
    obtain ⟨label, phrases⟩ := kv
    by_cases hm : phrases.any (fun k => strContains (pyLower fileName) k) = true
    · rw [List.find?_cons_of_pos
        (p := fun kv : String × List String => kv.2.any fun k => strContains (pyLower fileName) k)
        _ hm]
      simp only [scanKeywordTable]
      rw [if_pos hm]
    · rw [List.find?_cons_of_neg
        (p := fun kv : String × List String => kv.2.any fun k => strContains (pyLower fileName) k)
        _ (by simpa using hm)]
      rw [ih]
      simp only [scanKeywordTable]
      rw [if_neg hm]

/-- Witness for C7 amended at a concrete filename-only path matched by a
trigger phrase of the distribution label. -/
theorem autoLabelDocument_keyword_scan_witness :
    (pySplit "dividend notice.pdf" '/').length ≤ 2 ∧
    autoLabelDocument DOCUMENT_TYPE_KEYWORDS "dividend notice.pdf" "" = "DISTRIBUTION_NOTICE" :=
  ⟨by decide,
   (autoLabelDocument_keyword_scan DOCUMENT_TYPE_KEYWORDS "dividend notice.pdf" ""
     (by decide)).trans (by decide)⟩

/-! Claim C8: which classification pair the invoker returns. -/

theorem findCongr {α : Type} (p q : α → Bool) :
    ∀ l : List α, (∀ x ∈ l, p x = q x) → l.find? p = l.find? q
  | [], _ => rfl
  | x :: xs, h => by
    have hx := h x (List.mem_cons_self _ _)
    simp only [List.find?]
    rw [hx]
    cases hq : q x with
    | true => rfl
    | false => exact findCongr p q xs (fun y hy => h y (List.mem_cons_of_mem _ hy))

theorem bestScan_nil (acc : String × ℚ) : bestScan acc [] = acc := rfl

theorem bestScan_cons (acc p : String × ℚ) (l : List (String × ℚ)) :
    bestScan acc (p :: l) = bestScan (if p.2 > acc.2 then p else acc) l := rfl

theorem bestScan_of_bounded (l : List (String × ℚ)) (acc : String × ℚ)
    (h : ∀ q ∈ l, q.2 ≤ acc.2) : bestScan acc l = acc := by
  induction l with
  | nil => rfl
  | cons p t ih =>
    rw [bestScan_cons, if_neg (not_lt.mpr (h p (List.mem_cons_self _ _)))]
    exact ih (fun q hq => h q (List.mem_cons_of_mem _ hq))

theorem bestScan_find (l : List (String × ℚ)) (acc : String × ℚ) :
    (acc :: l).find? (fun x => (acc :: l).all (fun q => decide (q.2 ≤ x.2)))
      = some (bestScan acc l) := by
  induction l generalizing acc with
  | nil =>
    have hPacc : (([acc]).all (fun q => decide (q.2 ≤ acc.2))) = true := by simp
    simp only [List.find?_cons, hPacc, bestScan_nil]
  | cons p t ih =>
    rw [bestScan_cons]
    by_cases hp : p.2 > acc.2
    · rw [if_pos hp]
      have hPacc : ((acc :: p :: t).all (fun q => decide (q.2 ≤ acc.2))) = false := by
        apply Bool.eq_false_iff.mpr
        intro hall
        have := List.all_eq_true.mp hall p (by simp)
        rw [decide_eq_true_eq] at this
        exact absurd hp (not_lt.mpr this)
      have hpt : ∀ x ∈ p :: t,
          ((acc :: p :: t).all (fun q => decide (q.2 ≤ x.2))) =
          ((p :: t).all (fun q => decide (q.2 ≤ x.2))) := by
        intro x _
        simp only [List.all_cons]
        cases hR : ((t.all (fun q => decide (q.2 ≤ x.2))) : Bool)
        · simp
        · cases hpx : (decide (p.2 ≤ x.2) : Bool)
          · simp
          · have h1 : p.2 ≤ x.2 := of_decide_eq_true hpx
            have h2 : acc.2 ≤ x.2 := le_trans (le_of_lt hp) h1
            simp [h2]
      simp only [List.find?_cons, hPacc]
      rw [hpt p (List.mem_cons_self _ _)]
      rw [findCongr _ _ t (fun x hx => hpt x (List.mem_cons_of_mem _ hx))]
      have iph := ih p
      simp only [List.find?_cons] at iph
      exact iph
    · rw [if_neg hp]
      have hple : p.2 ≤ acc.2 := not_lt.mp hp
      by_cases hall : ∀ q ∈ acc :: p :: t, q.2 ≤ acc.2
      · have hpt : ((acc :: p :: t).all (fun q => decide (q.2 ≤ acc.2))) = true := by
          rw [List.all_eq_true]
          intro q hq
          exact decide_eq_true (hall q hq)
        simp only [List.find?_cons, hpt]
        rw [bestScan_of_bounded t acc
          (fun q hq => hall q (List.mem_cons_of_mem _ (List.mem_cons_of_mem _ hq)))]
      · push_neg at hall
        obtain ⟨w, hw, hwgt⟩ := hall
        have hwt : w ∈ t := by
          rcases List.mem_cons.mp hw with h1 | h1
          · exact absurd hwgt (by rw [h1]; exact lt_irrefl _)
          · rcases List.mem_cons.mp h1 with h2 | h2
            · exact absurd hwgt (by rw [h2]; exact not_lt.mpr hple)
            · exact h2
        have hPacc : ((acc :: p :: t).all (fun q => decide (q.2 ≤ acc.2))) = false := by
          apply Bool.eq_false_iff.mpr
          intro hall'
          have := List.all_eq_true.mp hall' w hw
          rw [decide_eq_true_eq] at this
          exact absurd hwgt (not_lt.mpr this)
        have hPp : ((acc :: p :: t).all (fun q => decide (q.2 ≤ p.2))) = false := by
          apply Bool.eq_false_iff.mpr
          intro hall'
          have := List.all_eq_true.mp hall' w hw
          rw [decide_eq_true_eq] at this
          exact absurd (lt_of_le_of_lt hple hwgt) (not_lt.mpr this)
        simp only [List.find?_cons, hPacc, hPp]
        have ihh := ih acc
        have hPATacc : ((acc :: t).all (fun q => decide (q.2 ≤ acc.2))) = false := by
          apply Bool.eq_false_iff.mpr
          intro hall'
          have := List.all_eq_true.mp hall' w (List.mem_cons_of_mem _ hwt)
          rw [decide_eq_true_eq] at this
          exact absurd hwgt (not_lt.mpr this)
        simp only [List.find?_cons, hPATacc] at ihh
        have hpt : ∀ x ∈ t,
            ((acc :: p :: t).all (fun q => decide (q.2 ≤ x.2))) =
            ((acc :: t).all (fun q => decide (q.2 ≤ x.2))) := by
          intro x _
          simp only [List.all_cons]
          cases hA : (decide (acc.2 ≤ x.2) : Bool)
          · simp
          · have h2 : p.2 ≤ x.2 := le_trans hple (of_decide_eq_true hA)
            simp [h2]
        rw [findCongr _ _ _ hpt]
        exact ihh

theorem labelScan_eq_bestScan (labels : List DocAILabel) (acc : String × ℚ) :
    labelScan labels acc = bestScan acc (labels.map (fun l => (l.name, l.confidence))) := by
  induction labels generalizing acc with
  | nil => rfl
  | cons l t ih =>
    simp only [labelScan, List.foldl_cons, List.map_cons, bestScan_cons]
    exact ih _

/-- C8 counterexample: with two typed entities of confidences 0.2 and 0.9
and no labels, the source returns the pair of the first entity, not the
highest-confidence pair (0.9) the claim requires. -/
theorem process_with_document_ai_not_max_counterexample :
    (process_with_document_ai (Except.ok
        { text := "", pages := [],
          entities := [{ type_ := "A", mentionText := "A", confidence := 1 / 5 },
                       { type_ := "B", mentionText := "B", confidence := 9 / 10 }],
          labels := [] })).map (fun r => (r.documentType, r.confidence)) =
      Except.ok ("A", (1 : ℚ) / 5) ∧
    ((9 : ℚ) / 10 > 1 / 5) := by
  refine ⟨by rfl, by norm_num⟩

/-- C8 amended: the pair returned by process_with_document_ai is the
first-seen maximum-confidence candidate among the first entity bearing a
non-empty type (with the (OTHER, 0) default when no entity does) followed
by all labels of the response; entities after the first typed one are not
considered. -/
theorem process_with_document_ai_first_seen_max (doc : DocAIDocument) :
    ∃ r, process_with_document_ai (Except.ok doc) = Except.ok r ∧
      (classCandidates doc).find? (fun x =>
        (classCandidates doc).all (fun q => decide (q.2 ≤ x.2))) =
        some (r.documentType, r.confidence) := by
  refine ⟨_, rfl, ?_⟩
  show (classCandidates doc).find? _ =
    some ((labelScan doc.labels (firstEntityClass doc.entities)).1,
          (labelScan doc.labels (firstEntityClass doc.entities)).2)
  rw [Prod.mk.eta, labelScan_eq_bestScan]
  exact bestScan_find _ _

/-! Claims C1 and C2: the threshold evaluator. -/

theorem setConfig_batches (store : Store) (pid : String) (c : TrainingConfig) :
    (setConfig store pid c).trainingBatches = store.trainingBatches := rfl

theorem setConfig_docs (store : Store) (pid : String) (c : TrainingConfig) :
    (setConfig store pid c).processedDocuments = store.processedDocuments := rfl

theorem setDoc_batches (store : Store) (id : String) (d : DocRecord) :
    (setDoc store id d).trainingBatches = store.trainingBatches := rfl

theorem filter_take_one_isEmpty {α : Type} (p : α → Bool) (l : List α) :
    (((l.filter p).take 1).isEmpty) = !(l.any p) := by
  induction l with
  | nil => rfl
  | cons a t ih => cases hpa : p a <;> simp [List.filter_cons, hpa, List.any_cons, ih]

theorem filter_filter_length {α : Type} (p q : α → Bool) (l : List α) :
    ((l.filter p).filter q).length = (l.filter (fun a => p a && q a)).length := by
  rw [List.filter_filter]
  rw [List.filter_congr (fun x _ => Bool.and_comm (q x) (p x))]

/-- The decision of check_training_conditions coincides with the reference
evaluator written from the specification text. -/
theorem ctc_fst_eq_spec (pid : String) (store : Store) (now : Nat) :
    (check_training_conditions pid store now).1 = thresholdEvaluatorSpec pid store := by
  unfold check_training_conditions thresholdEvaluatorSpec effectiveConfig hasActiveBatch
    specPendingCount specUnusedCount
  cases hc : lookupConfig store pid with
  | none =>
    simp only [hc]
    dsimp only [defaultTrainingConfig]
    simp only [Option.getD_some, Bool.not_true, setConfig_batches, setConfig_docs,
      filter_take_one_isEmpty, Bool.not_eq_true', Bool.not_not, filter_filter_length]
    split_ifs <;> rfl
  | some c =>
    simp only [hc]
    dsimp only
    simp only [setConfig_batches, setConfig_docs,
      filter_take_one_isEmpty, Bool.not_eq_true', Bool.not_not, filter_filter_length]
    split_ifs <;> rfl

/-- Whenever some batch of the processor is in a non-terminal status, the
evaluator declines to train. -/
theorem ctc_active_false (pid : String) (store : Store) (now : Nat)
    (hany : store.trainingBatches.any
      (fun b => b.processorId == pid && activeStatuses.contains b.status) = true) :
    (check_training_conditions pid store now).1 = (false, "") := by
  rw [ctc_fst_eq_spec]
  unfold thresholdEvaluatorSpec hasActiveBatch
  dsimp only
  rw [hany]
  split_ifs <;> simp_all

/-- The evaluator produces at most a config-creation effect. -/
theorem ctc_effects (pid : String) (store : Store) (now : Nat) :
    (check_training_conditions pid store now).2.2 = [] ∨
    (check_training_conditions pid store now).2.2 = [Effect.configCreated] := by
  unfold check_training_conditions
  cases hc : lookupConfig store pid <;> simp only [hc] <;>
    split_ifs <;> simp

/-- The evaluator never touches the processed_documents collection. -/
theorem ctc_docs (pid : String) (store : Store) (now : Nat) :
    (check_training_conditions pid store now).2.1.processedDocuments =
      store.processedDocuments := by
  unfold check_training_conditions
  cases hc : lookupConfig store pid <;> simp only [hc] <;>
    split_ifs <;> rfl

theorem lookup_setAssoc_self {α : Type} (k : String) (v : α) (l : List (String × α)) :
    (setAssoc l k v).lookup k = some v := by
  unfold setAssoc
  by_cases h : l.any (fun kv => kv.1 == k) = true
  · rw [if_pos h]
    induction l with
    | nil => simp at h
    | cons kv t ih =>
      simp only [List.map_cons]
      by_cases hk : kv.1 = k
      · rw [if_pos (beq_iff_eq.mpr hk)]
        simp [List.lookup]
      · have hk1 : (kv.1 == k) = false := beq_eq_false_iff_ne.mpr hk
        have hk2 : (k == kv.1) = false := beq_eq_false_iff_ne.mpr (Ne.symm hk)
        have ht : t.any (fun kv => kv.1 == k) = true := by
          rcases List.any_eq_true.mp h with ⟨x, hx, hxk⟩
          rcases List.mem_cons.mp hx with h1 | h1
          · rw [h1] at hxk
            rw [hk1] at hxk
            exact absurd hxk (by simp)
          · exact List.any_eq_true.mpr ⟨x, h1, hxk⟩
        rw [if_neg (by rw [hk1]; simp)]
        simp only [List.lookup, hk2]
        exact ih ht
  · rw [if_neg h]
    induction l with
    | nil => simp [List.lookup]
    | cons kv t ih =>
      have hk1 : (kv.1 == k) = false := by
        cases hkk : (kv.1 == k) with
        | false => rfl
        | true => exact absurd (List.any_eq_true.mpr ⟨kv, List.mem_cons_self _ _, hkk⟩) h
      have hk2 : (k == kv.1) = false :=
        beq_eq_false_iff_ne.mpr (Ne.symm (beq_eq_false_iff_ne.mp hk1))
      simp only [List.cons_append, List.lookup, hk2]
      exact ih (fun ht => h (by
        rcases List.any_eq_true.mp ht with ⟨x, hx, hxk⟩
        exact List.any_eq_true.mpr ⟨x, List.mem_cons_of_mem _ hx, hxk⟩))

theorem lookupDoc_setDoc_self (store : Store) (id : String) (d : DocRecord) :
    lookupDoc (setDoc store id d) id = some d :=
  lookup_setAssoc_self id d store.processedDocuments

/-- All outcome branches of saveAndMaybeTrain return the evaluator store. -/
theorem saveAndMaybeTrain_store (pid : String) (ora : Oracles) (now : Nat)
    (id : String) (d : DocRecord) (store : Store) (effs : List Effect) :
    (saveAndMaybeTrain pid ora now id d store effs).2.1 =
      (check_training_conditions pid (setDoc store id d) now).2.1 := by
  unfold saveAndMaybeTrain
  dsimp only
  split_ifs
  · cases ora.workflow <;> rfl
  · rfl

/-- The record written by saveAndMaybeTrain is found in the final store. -/
theorem saveAndMaybeTrain_lookup (pid : String) (ora : Oracles) (now : Nat)
    (id : String) (d : DocRecord) (store : Store) (effs : List Effect) :
    lookupDoc (saveAndMaybeTrain pid ora now id d store effs).2.1 id = some d := by
  rw [saveAndMaybeTrain_store]
  unfold lookupDoc
  rw [ctc_docs]
  exact lookup_setAssoc_self id d _

/-- saveAndMaybeTrain triggers the workflow only when the evaluator said to
train (unless the incoming trace already contains a trigger). -/
theorem saveAndMaybeTrain_no_workflow (pid : String) (ora : Oracles) (now : Nat)
    (id : String) (d : DocRecord) (store : Store) (effs : List Effect) (t : String)
    (h1 : Effect.workflowTriggered t ∉ effs)
    (h2 : (check_training_conditions pid (setDoc store id d) now).1.1 = false) :
    Effect.workflowTriggered t ∉ (saveAndMaybeTrain pid ora now id d store effs).2.2 := by
  unfold saveAndMaybeTrain
  dsimp only
  rw [h2]
  simp only [Bool.false_eq_true, if_false]
  intro hmem
  rcases List.mem_append.mp hmem with hmem' | hmem'
  · rcases List.mem_append.mp hmem' with hmem'' | hmem''
    · exact h1 hmem''
    · simp at hmem''
  · rcases ctc_effects pid (setDoc store id d) now with he | he <;> rw [he] at hmem' <;>
      simp at hmem'

theorem contains_of_mem {a : String} {l : List String} (h : a ∈ l) : l.contains a = true :=
  List.elem_iff.mpr h

/-- Any batch of the store satisfying the active-batch property makes the
source query predicate succeed. -/
theorem any_active_of_exists (pid : String) (store : Store)
    (h : ∃ b ∈ store.trainingBatches, b.processorId = pid ∧ b.status ∈ activeStatuses) :
    store.trainingBatches.any
      (fun b => b.processorId == pid && activeStatuses.contains b.status) = true := by
  obtain ⟨b, hb, h1, h2⟩ := h
  exact List.any_eq_true.mpr ⟨b, hb, by
    rw [beq_iff_eq.mpr h1, contains_of_mem h2]
    rfl⟩

/-- C1: while a batch of the processor is in one of the non-terminal
statuses pending, preparing, training or deploying, the Threshold
Evaluator answers (false, empty) whatever the document counts are, and no
invocation of the upload handler on that store emits a workflow trigger. -/
theorem active_batch_mutual_exclusion (pid : String) (store : Store) (now : Nat)
    (h : ∃ b ∈ store.trainingBatches, b.processorId = pid ∧ b.status ∈ activeStatuses) :
    (check_training_conditions pid store now).1 = (false, "") ∧
    ∀ (ora : Oracles) (event : UploadEvent) (t : String),
      Effect.workflowTriggered t ∉ (process_document_upload pid ora now event store).2.2 := by
  have hany := any_active_of_exists pid store h
  refine ⟨ctc_active_false pid store now hany, ?_⟩
  intro ora event t
  have hblock : ∀ (id : String) (d : DocRecord),
      (check_training_conditions pid (setDoc store id d) now).1.1 = false := by
    intro id d
    rw [ctc_active_false pid (setDoc store id d) now (by rw [setDoc_batches]; exact hany)]
  unfold process_document_upload
  by_cases h1 : (!pyStartsWith event.name "documents/" ||
      !(event.contentType == "application/pdf")) = true
  · rw [if_pos h1]
    simp
  · rw [if_neg h1]
    dsimp only
    by_cases h2 : alreadyCompleted store (computeDocumentId event.name) = true
    · rw [if_pos h2]
      simp
    · rw [if_neg h2]
      by_cases h3 : check_processor_versions ora.listVersions = true
      · rw [if_pos h3]
        cases hr : process_with_document_ai ora.classify with
        | error e => simp
        | ok result =>
          exact saveAndMaybeTrain_no_workflow _ _ _ _ _ _ _ _ (by simp) (hblock _ _)
      · rw [if_neg h3]
        exact saveAndMaybeTrain_no_workflow _ _ _ _ _ _ _ _ (by simp) (hblock _ _)

/-- Concrete fixture: a store whose only batch is active. -/
def storeActive : Store :=
  { processedDocuments := [], trainingConfigs := [],
    trainingBatches := [{ processorId := "p1", status := "training" }] }

/-- Concrete fixture: no deployed version, classification unused, workflow
succeeding. -/
def oraPlain : Oracles :=
  { listVersions := Except.ok [], classify := Except.error "unused",
    workflow := Except.ok () }

/-- Concrete fixture: a PDF upload event under the documents prefix. -/
def evPdf : UploadEvent :=
  { bucket := "b", name := "documents/x.pdf", contentType := "application/pdf" }

/-- Witness for C1 on a store holding one training batch in progress. -/
theorem active_batch_mutual_exclusion_witness :
    (∃ b ∈ storeActive.trainingBatches, b.processorId = "p1" ∧ b.status ∈ activeStatuses) ∧
    (check_training_conditions "p1" storeActive 0).1 = (false, "") ∧
    Effect.workflowTriggered "initial" ∉
      (process_document_upload "p1" oraPlain 0 evPdf storeActive).2.2 :=
  ⟨by decide,
   (active_batch_mutual_exclusion "p1" storeActive 0 (by decide)).1,
   (active_batch_mutual_exclusion "p1" storeActive 0 (by decide)).2 oraPlain evPdf "initial"⟩

/-- C2: the decision pair of check_training_conditions is exactly the
reference Threshold Evaluator of the specification: disabled means no
training; with no active batch, the labeled pending-initial count is
checked against the initial threshold before the labeled unused-completed
count is checked against the incremental threshold, and otherwise no
training is requested. -/
theorem check_training_conditions_matches_spec (pid : String) (store : Store) (now : Nat) :
    (check_training_conditions pid store now).1 = thresholdEvaluatorSpec pid store :=
  ctc_fst_eq_spec pid store now

/-! Handler reduction lemmas shared by the remaining claims. -/

/-- A valid duplicate upload whose stored record is in completed status is
skipped without touching the store and without external calls. -/
theorem handler_completed_skip (pid : String) (ora : Oracles) (now : Nat)
    (event : UploadEvent) (store : Store) (r : DocRecord)
    (hn : pyStartsWith event.name "documents/" = true)
    (hct : event.contentType = "application/pdf")
    (hl : lookupDoc store (computeDocumentId event.name) = some r)
    (hr : r.status = "completed") :
    process_document_upload pid ora now event store =
      ({ status := "skipped", reason := some "Already processed" }, store, []) := by
  unfold process_document_upload
  have hcond : ¬ ((!pyStartsWith event.name "documents/" ||
      !(event.contentType == "application/pdf")) = true) := by simp [hn, hct]
  rw [if_neg hcond]
  dsimp only
  have hac : alreadyCompleted store (computeDocumentId event.name) = true := by
    unfold alreadyCompleted
    rw [hl]
    dsimp only
    rw [hr]
    rfl
  rw [if_pos hac]

/-- With no deployed version, a fresh valid upload reduces to saving the
record in the pending_initial_training status and evaluating thresholds. -/
theorem handler_pending_eq (pid : String) (ora : Oracles) (now : Nat)
    (event : UploadEvent) (store : Store)
    (hn : pyStartsWith event.name "documents/" = true)
    (hct : event.contentType = "application/pdf")
    (hnc : alreadyCompleted store (computeDocumentId event.name) = false)
    (hver : check_processor_versions ora.listVersions = false) :
    process_document_upload pid ora now event store =
      saveAndMaybeTrain pid ora now (computeDocumentId event.name)
        { documentId := computeDocumentId event.name
          gcsUri := "gs://" ++ event.bucket ++ "/" ++ event.name
          bucket := event.bucket
          fileName := event.name
          processorId := pid
          status := "pending_initial_training"
          documentLabel := autoLabelDocument DOCUMENT_TYPE_KEYWORDS event.name
            ("gs://" ++ event.bucket ++ "/" ++ event.name)
          createdAt := now
          usedForTraining := false }
        store [Effect.versionsListed] := by
  unfold process_document_upload
  have hcond : ¬ ((!pyStartsWith event.name "documents/" ||
      !(event.contentType == "application/pdf")) = true) := by simp [hn, hct]
  rw [if_neg hcond]
  dsimp only
  rw [if_neg (by simp [hnc]), if_neg (by simp [hver])]

/-- With a deployed version and a successful classification, a fresh valid
upload reduces to saving the completed record carrying the
confidence-gated label and evaluating thresholds. -/
theorem handler_classified_eq (pid : String) (ora : Oracles) (now : Nat)
    (event : UploadEvent) (store : Store) (pr : ProcessResult)
    (hn : pyStartsWith event.name "documents/" = true)
    (hct : event.contentType = "application/pdf")
    (hnc : alreadyCompleted store (computeDocumentId event.name) = false)
    (hver : check_processor_versions ora.listVersions = true)
    (hcl : process_with_document_ai ora.classify = Except.ok pr) :
    process_document_upload pid ora now event store =
      saveAndMaybeTrain pid ora now (computeDocumentId event.name)
        { documentId := computeDocumentId event.name
          gcsUri := "gs://" ++ event.bucket ++ "/" ++ event.name
          bucket := event.bucket
          fileName := event.name
          processorId := pid
          status := "completed"
          documentLabel :=
            if pr.confidence < 7 / 10 ∧
                autoLabelDocument DOCUMENT_TYPE_KEYWORDS event.name
                  ("gs://" ++ event.bucket ++ "/" ++ event.name) ≠ "OTHER" then
              autoLabelDocument DOCUMENT_TYPE_KEYWORDS event.name
                ("gs://" ++ event.bucket ++ "/" ++ event.name)
            else pr.documentType
          createdAt := now
          usedForTraining := false
          documentType := some pr.documentType
          confidenceScore := some pr.confidence
          processedAt := some now
          extractedData := some pr.extractedData }
        store [Effect.versionsListed,
               Effect.classifyCalled ("gs://" ++ event.bucket ++ "/" ++ event.name)] := by
  unfold process_document_upload
  have hcond : ¬ ((!pyStartsWith event.name "documents/" ||
      !(event.contentType == "application/pdf")) = true) := by simp [hn, hct]
  rw [if_neg hcond]
  dsimp only
  rw [if_neg (by simp [hnc]), if_pos hver, hcl]

/-- Every effect of saveAndMaybeTrain is either inherited, the record
write, the config creation or a workflow trigger. -/
theorem saveAndMaybeTrain_effects (pid : String) (ora : Oracles) (now : Nat)
    (id : String) (d : DocRecord) (store : Store) (effs : List Effect) (e : Effect)
    (h : e ∈ (saveAndMaybeTrain pid ora now id d store effs).2.2) :
    e ∈ effs ∨ e = Effect.recordWritten id ∨ e = Effect.configCreated ∨
      ∃ t, e = Effect.workflowTriggered t := by
  have hctc := ctc_effects pid (setDoc store id d) now
  unfold saveAndMaybeTrain at h
  dsimp only at h
  split_ifs at h
  · cases hw : ora.workflow with
    | ok u =>
      rw [hw] at h
      dsimp only at h
      rcases List.mem_append.mp h with h1 | h1
      · rcases List.mem_append.mp h1 with h2 | h2
        · rcases List.mem_append.mp h2 with h3 | h3
          · exact Or.inl h3
          · exact Or.inr (Or.inl (by simpa using h3))
        · rcases hctc with he | he <;> rw [he] at h2 <;> simp at h2
          exact Or.inr (Or.inr (Or.inl h2))
      · exact Or.inr (Or.inr (Or.inr ⟨_, by simpa using h1⟩))
    | error er =>
      rw [hw] at h
      dsimp only at h
      rcases List.mem_append.mp h with h1 | h1
      · rcases List.mem_append.mp h1 with h2 | h2
        · rcases List.mem_append.mp h2 with h3 | h3
          · exact Or.inl h3
          · exact Or.inr (Or.inl (by simpa using h3))
        · rcases hctc with he | he <;> rw [he] at h2 <;> simp at h2
          exact Or.inr (Or.inr (Or.inl h2))
      · exact Or.inr (Or.inr (Or.inr ⟨_, by simpa using h1⟩))
  · rcases List.mem_append.mp h with h1 | h1
    · rcases List.mem_append.mp h1 with h2 | h2
      · exact Or.inl h2
      · exact Or.inr (Or.inl (by simpa using h2))
    · rcases hctc with he | he <;> rw [he] at h1 <;> simp at h1
      exact Or.inr (Or.inr (Or.inl h1))

/-- saveAndMaybeTrain reports success or partial success. -/
theorem saveAndMaybeTrain_status (pid : String) (ora : Oracles) (now : Nat)
    (id : String) (d : DocRecord) (store : Store) (effs : List Effect) :
    (saveAndMaybeTrain pid ora now id d store effs).1.status = "success" ∨
    (saveAndMaybeTrain pid ora now id d store effs).1.status = "partial_success" := by
  unfold saveAndMaybeTrain
  dsimp only
  split_ifs
  · cases ora.workflow <;> simp
  · simp

/-! Concrete fixtures for the handler claims. -/

/-- An empty store. -/
def storeEmpty : Store :=
  { processedDocuments := [], trainingConfigs := [], trainingBatches := [] }

/-- A completed record consumed by training (terminal per the spec). -/
def recCompleted : DocRecord :=
  { documentId := computeDocumentId "documents/x.pdf"
    gcsUri := "gs://b/documents/x.pdf"
    bucket := "b"
    fileName := "documents/x.pdf"
    processorId := "p1"
    status := "completed"
    documentLabel := "TAX"
    createdAt := 0
    usedForTraining := true }

/-- A store holding only the completed record. -/
def storeCompleted : Store :=
  { processedDocuments := [(computeDocumentId "documents/x.pdf", recCompleted)],
    trainingConfigs := [], trainingBatches := [] }

/-- A record in the imported status (terminal per the spec). -/
def recImported : DocRecord :=
  { documentId := computeDocumentId "documents/x.pdf"
    gcsUri := "gs://b/documents/x.pdf"
    bucket := "b"
    fileName := "documents/x.pdf"
    processorId := "p1"
    status := "imported"
    documentLabel := "TAX"
    createdAt := 0
    usedForTraining := true }

/-- A store holding only the imported record. -/
def storeImported : Store :=
  { processedDocuments := [(computeDocumentId "documents/x.pdf", recImported)],
    trainingConfigs := [], trainingBatches := [] }

/-- A record awaiting initial training, created at time 0. -/
def recPending0 : DocRecord :=
  { documentId := computeDocumentId "documents/x.pdf"
    gcsUri := "gs://b/documents/x.pdf"
    bucket := "b"
    fileName := "documents/x.pdf"
    processorId := "p1"
    status := "pending_initial_training"
    documentLabel := "TAX"
    createdAt := 0
    usedForTraining := false }

/-- A store holding only the pending record. -/
def storePending : Store :=
  { processedDocuments := [(computeDocumentId "documents/x.pdf", recPending0)],
    trainingConfigs := [], trainingBatches := [] }

/-- A deployed processor version, a high-confidence classification and a
succeeding workflow. -/
def oraDeployed : Oracles :=
  { listVersions := Except.ok [{ displayName := "v1", state := "DEPLOYED" }]
    classify := Except.ok
      { text := "", pages := [],
        entities := [{ type_ := "CAPITAL_CALL", mentionText := "cc", confidence := 9 / 10 }],
        labels := [] }
    workflow := Except.ok () }

/-- Listing processor versions fails. -/
def oraErr : Oracles :=
  { listVersions := Except.error "boom", classify := Except.error "unused",
    workflow := Except.ok () }

/-! Claim C3: duplicate handling. -/

set_option maxRecDepth 20000 in
/-- C3 counterexample: a duplicate upload for a record in the terminal
imported status is not skipped: the handler reprocesses it, writes the
record and reports success, contradicting the claim that every terminal
state short-circuits. -/
theorem duplicate_imported_upload_reprocessed :
    recImported.status = "imported" ∧
    lookupDoc storeImported (computeDocumentId "documents/x.pdf") = some recImported ∧
    (process_document_upload "p1" oraPlain 1 evPdf storeImported).1.status = "success" ∧
    Effect.recordWritten (computeDocumentId "documents/x.pdf") ∈
      (process_document_upload "p1" oraPlain 1 evPdf storeImported).2.2 :=
  ⟨rfl, rfl, by decide, by decide⟩

/-- C3 amended: only the completed status short-circuits a duplicate
upload: then the handler returns the skip result, leaves the store
untouched and performs no external call; duplicates in any other status,
including the terminal imported status, are reprocessed. -/
theorem duplicate_completed_upload_is_noop (pid : String) (ora : Oracles) (now : Nat)
    (event : UploadEvent) (store : Store) (r : DocRecord)
    (hn : pyStartsWith event.name "documents/" = true)
    (hct : event.contentType = "application/pdf")
    (hl : lookupDoc store (computeDocumentId event.name) = some r)
    (hr : r.status = "completed") :
    process_document_upload pid ora now event store =
      ({ status := "skipped", reason := some "Already processed" }, store, []) :=
  handler_completed_skip pid ora now event store r hn hct hl hr

set_option maxRecDepth 20000 in
/-- Witness for C3 amended on a completed record already consumed by
training. -/
theorem duplicate_completed_upload_is_noop_witness :
    recCompleted.usedForTraining = true ∧
    process_document_upload "p1" oraPlain 1 evPdf storeCompleted =
      ({ status := "skipped", reason := some "Already processed" }, storeCompleted, []) :=
  ⟨rfl, duplicate_completed_upload_is_noop "p1" oraPlain 1 evPdf storeCompleted recCompleted
    (by decide) rfl rfl rfl⟩

/-! Claim C4: confidence-gated relabeling. -/

/-- C4: when a deployed version exists and classification succeeds, the
stored document_label is the predicted type whenever the confidence
reaches 0.7 or the auto-label is OTHER, and the auto-label is kept
whenever the confidence is below 0.7 and the auto-label is not OTHER. -/
theorem relabeling_threshold (pid : String) (ora : Oracles) (now : Nat)
    (event : UploadEvent) (store : Store) (pr : ProcessResult)
    (hn : pyStartsWith event.name "documents/" = true)
    (hct : event.contentType = "application/pdf")
    (hnc : alreadyCompleted store (computeDocumentId event.name) = false)
    (hver : check_processor_versions ora.listVersions = true)
    (hcl : process_with_document_ai ora.classify = Except.ok pr) :
    ∃ d, lookupDoc (process_document_upload pid ora now event store).2.1
        (computeDocumentId event.name) = some d ∧
      ((7 / 10 ≤ pr.confidence ∨
          autoLabelDocument DOCUMENT_TYPE_KEYWORDS event.name
            ("gs://" ++ event.bucket ++ "/" ++ event.name) = "OTHER") →
        d.documentLabel = pr.documentType) ∧
      (pr.confidence < 7 / 10 →
        autoLabelDocument DOCUMENT_TYPE_KEYWORDS event.name
          ("gs://" ++ event.bucket ++ "/" ++ event.name) ≠ "OTHER" →
        d.documentLabel =
          autoLabelDocument DOCUMENT_TYPE_KEYWORDS event.name
            ("gs://" ++ event.bucket ++ "/" ++ event.name)) := by
  rw [handler_classified_eq pid ora now event store pr hn hct hnc hver hcl]
  refine ⟨_, saveAndMaybeTrain_lookup _ _ _ _ _ _ _, ?_, ?_⟩
  · intro hor
    show (if pr.confidence < 7 / 10 ∧
        autoLabelDocument DOCUMENT_TYPE_KEYWORDS event.name
          ("gs://" ++ event.bucket ++ "/" ++ event.name) ≠ "OTHER" then
        autoLabelDocument DOCUMENT_TYPE_KEYWORDS event.name
          ("gs://" ++ event.bucket ++ "/" ++ event.name)
      else pr.documentType) = pr.documentType
    rcases hor with hge | hoth
    · exact if_neg (fun hand => absurd hand.1 (not_lt.mpr hge))
    · exact if_neg (fun hand => hand.2 hoth)
  · intro hlt hne
    show (if pr.confidence < 7 / 10 ∧
        autoLabelDocument DOCUMENT_TYPE_KEYWORDS event.name
          ("gs://" ++ event.bucket ++ "/" ++ event.name) ≠ "OTHER" then
        autoLabelDocument DOCUMENT_TYPE_KEYWORDS event.name
          ("gs://" ++ event.bucket ++ "/" ++ event.name)
      else pr.documentType) =
      autoLabelDocument DOCUMENT_TYPE_KEYWORDS event.name
        ("gs://" ++ event.bucket ++ "/" ++ event.name)
    exact if_pos ⟨hlt, hne⟩

set_option maxRecDepth 20000 in
/-- Witness for C4: a 0.9-confidence prediction relabels the document. -/
theorem relabeling_threshold_witness :
    ∃ d, lookupDoc (process_document_upload "p1" oraDeployed 0 evPdf storeEmpty).2.1
        (computeDocumentId "documents/x.pdf") = some d ∧
      d.documentLabel = "CAPITAL_CALL" := by
  obtain ⟨d, hd, h1, h2⟩ := relabeling_threshold "p1" oraDeployed 0 evPdf storeEmpty
    { documentType := "CAPITAL_CALL"
      confidence := 9 / 10
      extractedData :=
        { textLength := 0
          pageCount := 0
          entities := [{ type := "CAPITAL_CALL", text := "cc", confidence := 9 / 10 }] } }
    (by decide) rfl (by decide) (by decide) (by rfl)
  exact ⟨d, hd, by rw [h1 (Or.inl (by norm_num))]⟩

/-! Claim C9: timestamp stability. -/

set_option maxRecDepth 20000 in
/-- C9 counterexample: a duplicate upload for a record still pending
initial training overwrites the whole record, in particular created_at
moves from 0 to the new invocation time 1. -/
theorem created_at_rewritten_counterexample :
    recPending0.createdAt = 0 ∧
    lookupDoc storePending (computeDocumentId "documents/x.pdf") = some recPending0 ∧
    (Option.map DocRecord.createdAt
      (lookupDoc (process_document_upload "p1" oraPlain 1 evPdf storePending).2.1
        (computeDocumentId "documents/x.pdf"))) = some 1 :=
  ⟨rfl, rfl, by decide⟩

/-- C9 amended: created_at of an existing record survives a duplicate
upload only through the completed-status skip path; a duplicate upload of
a record in any other status that reaches the record write (here: no
deployed version) replaces the record, resetting created_at to the
current invocation time. -/
theorem created_at_conditional (pid : String) (ora : Oracles) (now : Nat)
    (event : UploadEvent) (store : Store) (r : DocRecord)
    (hn : pyStartsWith event.name "documents/" = true)
    (hct : event.contentType = "application/pdf")
    (hl : lookupDoc store (computeDocumentId event.name) = some r) :
    (r.status = "completed" →
      lookupDoc (process_document_upload pid ora now event store).2.1
        (computeDocumentId event.name) = some r) ∧
    (r.status ≠ "completed" → check_processor_versions ora.listVersions = false →
      ∃ d, lookupDoc (process_document_upload pid ora now event store).2.1
          (computeDocumentId event.name) = some d ∧ d.createdAt = now) := by
  constructor
  · intro hr
    rw [handler_completed_skip pid ora now event store r hn hct hl hr]
    exact hl
  · intro hr hver
    have hnc : alreadyCompleted store (computeDocumentId event.name) = false := by
      unfold alreadyCompleted
      rw [hl]
      dsimp only
      exact beq_eq_false_iff_ne.mpr hr
    rw [handler_pending_eq pid ora now event store hn hct hnc hver]
    exact ⟨_, saveAndMaybeTrain_lookup _ _ _ _ _ _ _, rfl⟩

set_option maxRecDepth 20000 in
/-- Witness for C9 amended: the completed record survives unchanged, and
the pending record is rewritten with the fresh timestamp. -/
theorem created_at_conditional_witness :
    lookupDoc (process_document_upload "p1" oraPlain 5 evPdf storeCompleted).2.1
      (computeDocumentId "documents/x.pdf") = some recCompleted ∧
    (∃ d, lookupDoc (process_document_upload "p1" oraPlain 5 evPdf storePending).2.1
        (computeDocumentId "documents/x.pdf") = some d ∧ d.createdAt = 5) :=
  ⟨(created_at_conditional "p1" oraPlain 5 evPdf storeCompleted recCompleted
      (by decide) rfl rfl).1 rfl,
   (created_at_conditional "p1" oraPlain 5 evPdf storePending recPending0
      (by decide) rfl rfl).2 (by decide) rfl⟩

/-! Claim C10: silent failure of the version listing. -/

/-- C10: when listing processor versions fails, check_processor_versions
returns false, so the document is stored for initial training with no
classification call and no error status for the invocation. -/
theorem versions_failure_routes_to_initial_pool (pid : String) (ora : Oracles) (now : Nat)
    (event : UploadEvent) (store : Store) (e : String)
    (hn : pyStartsWith event.name "documents/" = true)
    (hct : event.contentType = "application/pdf")
    (hnc : alreadyCompleted store (computeDocumentId event.name) = false)
    (herr : ora.listVersions = Except.error e) :
    check_processor_versions ora.listVersions = false ∧
    (∃ d, lookupDoc (process_document_upload pid ora now event store).2.1
        (computeDocumentId event.name) = some d ∧
      d.status = "pending_initial_training") ∧
    (∀ uri, Effect.classifyCalled uri ∉ (process_document_upload pid ora now event store).2.2) ∧
    ((process_document_upload pid ora now event store).1.status = "success" ∨
     (process_document_upload pid ora now event store).1.status = "partial_success") := by
  have hver : check_processor_versions ora.listVersions = false := by
    rw [herr]
    rfl
  rw [handler_pending_eq pid ora now event store hn hct hnc hver]
  refine ⟨hver, ⟨_, saveAndMaybeTrain_lookup _ _ _ _ _ _ _, rfl⟩, ?_, ?_⟩
  · intro uri hmem
    rcases saveAndMaybeTrain_effects _ _ _ _ _ _ _ _ hmem with h1 | h1 | h1 | ⟨t, h1⟩ <;>
      simp at h1
  · exact saveAndMaybeTrain_status _ _ _ _ _ _ _

set_option maxRecDepth 20000 in
/-- Witness for C10 at a concrete failing version listing. -/
theorem versions_failure_witness :
    check_processor_versions oraErr.listVersions = false ∧
    (∃ d, lookupDoc (process_document_upload "p1" oraErr 0 evPdf storeEmpty).2.1
        (computeDocumentId "documents/x.pdf") = some d ∧
      d.status = "pending_initial_training") :=
  ⟨(versions_failure_routes_to_initial_pool "p1" oraErr 0 evPdf storeEmpty "boom"
      (by decide) rfl (by decide) rfl).1,
   (versions_failure_routes_to_initial_pool "p1" oraErr 0 evPdf storeEmpty "boom"
      (by decide) rfl (by decide) rfl).2.1⟩

end DocAI
